import Mathlib

/-!
# Verification of the http-writer serializer

A shallow embedding of the `http-writer` crate: a zero-copy serializer for
HTTP/1.x request and response lines, headers and the terminating blank line.
Strings are modelled as lists of byte values (`List Nat`), the byte sink as a
buffer together with a plan prescribing which forthcoming write calls succeed,
and iterator state (the header/query chains that are consumed by
serialization) as explicit list state threaded through the serializers.
-/

namespace HttpWriter

/-- Byte encoding of an ASCII string literal. -/
def strBytes (s : String) : List Nat := s.data.map Char.toNat

/-- A byte sink modelling `std::io::Write`: `buf` holds the bytes received so
far, `plan` prescribes the outcome of each forthcoming write call (`true` =
success, `false` = an I/O error); an exhausted plan means every further write
succeeds.  A failing write appends nothing. -/
structure Sink where
  buf : List Nat
  plan : List Bool
  deriving DecidableEq, Repr

/-- One write call on the sink: appends the bytes and reports success, or
appends nothing and reports failure, as prescribed by the plan. -/
def Sink.write (s : Sink) (bs : List Nat) : Sink × Bool :=
  match s.plan with
  | [] => (⟨s.buf ++ bs, []⟩, true)
  | ok :: rest => if ok then (⟨s.buf ++ bs, rest⟩, true) else (⟨s.buf, rest⟩, false)

/-- `httparse::Header`: a borrowed name/value pair. -/
structure Header where
  name : List Nat
  value : List Nat
  deriving DecidableEq, Repr

/-- `HeaderWriteError` from `lib.rs`. -/
inductive HeaderWriteError where
  | InvalidName (pos : Nat)
  | InvalidValue (pos : Nat)
  | Io
  deriving DecidableEq, Repr

/-- Rust's `Iterator::position`: the index of the first element satisfying
`p`, if any. -/
def position (p : Nat → Bool) : List Nat → Option Nat
  | [] => none
  | b :: rest => if p b then some 0 else (position p rest).map (· + 1)

/-- `u8::is_ascii_digit`. -/
def isAsciiDigit (b : Nat) : Bool := 48 ≤ b && b ≤ 57

/-- `u8::is_ascii_alphanumeric`. -/
def isAsciiAlphanumeric (b : Nat) : Bool :=
  isAsciiDigit b || (65 ≤ b && b ≤ 90) || (97 ≤ b && b ≤ 122)

/-- The byte predicate of `write_header`'s name check:
ASCII alphanumeric, `-` (45) or `_` (95). -/
def nameByteOk (b : Nat) : Bool := isAsciiAlphanumeric b || b == 45 || b == 95

/-- The byte predicate of `write_header`'s value check:
CR (13), LF (10) or NUL (0) are forbidden. -/
def valueByteBad (b : Nat) : Bool := b == 13 || b == 10 || b == 0

/-- `write_header_unchecked` from `lib.rs`: writes `name`, `": "`, `value`,
`"\r\n"` in four write calls and returns
`name.length + 2 + value.length + 2`; `none` models the `?`-propagated
`std::io::Error`. -/
def write_header_unchecked (w : Sink) (h : Header) : Sink × Option Nat :=
  let (w1, ok1) := w.write h.name
  if !ok1 then (w1, none) else
  let (w2, ok2) := w1.write [58, 32]
  if !ok2 then (w2, none) else
  let (w3, ok3) := w2.write h.value
  if !ok3 then (w3, none) else
  let (w4, ok4) := w3.write [13, 10]
  if !ok4 then (w4, none) else
  (w4, some (h.name.length + 2 + h.value.length + 2))

/-- `write_header` from `lib.rs`: validates the name, then the value, then
delegates to `write_header_unchecked`, converting an I/O failure to
`HeaderWriteError.Io`. -/
def write_header (w : Sink) (h : Header) : Sink × Except HeaderWriteError Nat :=
  match position (fun ch => !(nameByteOk ch)) h.name with
  | some pos => (w, .error (.InvalidName pos))
  | none =>
    match position valueByteBad h.value with
    | some pos => (w, .error (.InvalidValue pos))
    | none =>
      match write_header_unchecked w h with
      | (w1, none) => (w1, .error .Io)
      | (w1, some n) => (w1, .ok n)

/-- The `Version` wire strings from `version.rs`: a version tag is modelled by
the byte string its `as_str` returns. -/
def UNSPECIFIED : List Nat := []

/-- `version::V1.as_str() == "1.0"`. -/
def V1 : List Nat := strBytes "1.0"

/-- `version::V1_1.as_str() == "1.1"`. -/
def V1_1 : List Nat := strBytes "1.1"

/-- The version sanity check shared by `Request::write_to` and
`Response::write_to`: reject unless the length is exactly 3 and some byte is
an ASCII digit or `.` (46). -/
def versionBad (v : List Nat) : Bool :=
  v.length != 3 || !(v.any (fun ch => isAsciiDigit ch || ch == 46))

/-- `Method` from `request.rs`. -/
inductive Method where
  | Get | Head | Post | Put | Delete | Connect | Options | Trace | Patch
  | Custom (s : List Nat)
  deriving DecidableEq, Repr

/-- `Method::as_str`. -/
def Method.as_str : Method → List Nat
  | .Get => strBytes "GET"
  | .Head => strBytes "HEAD"
  | .Post => strBytes "POST"
  | .Put => strBytes "PUT"
  | .Delete => strBytes "DELETE"
  | .Connect => strBytes "CONNECT"
  | .Options => strBytes "OPTIONS"
  | .Trace => strBytes "TRACE"
  | .Patch => strBytes "PATCH"
  | .Custom c => c

/-- `RequestWriteError` from `request.rs`. -/
inductive RequestWriteError where
  | InvalidVersion
  | InvalidPath
  | InvalidQuery
  | InvalidHeader (buffer_offset : Nat) (err : HeaderWriteError)
  | Io
  deriving DecidableEq, Repr

/-- The `Request` assembler state: the header and query chains are the
sequences still to be drained by serialization (consumed exactly once, in
insertion order). -/
structure Request where
  path : Option (List Nat)
  method : Method
  headers : List Header
  version : List Nat
  queries : List (List Nat)
  deriving DecidableEq, Repr

/-- `Request::new`: no path, no headers, no queries, unspecified version. -/
def Request.new (m : Method) : Request :=
  ⟨none, m, [], UNSPECIFIED, []⟩

/-- `Request::path`: set (replace) the path. -/
def Request.setPath (r : Request) (p : List Nat) : Request :=
  { r with path := some p }

/-- `Request::version`: replace the version tag. -/
def Request.setVersion (r : Request) (v : List Nat) : Request :=
  { r with version := v }

/-- `Request::header`: chain one more header after the existing sequence. -/
def Request.addHeader (r : Request) (name value : List Nat) : Request :=
  { r with headers := r.headers ++ [⟨name, value⟩] }

/-- `Request::query`: chain one more query fragment after the existing
sequence. -/
def Request.addQuery (r : Request) (q : List Nat) : Request :=
  { r with queries := r.queries ++ [q] }

/-- Path resolution in `Request::write_to`: an unset path defaults to `"/"`;
a set path must pass the external URI path validator (`EStr::<Path>::new`,
modelled by the black-box predicate `pv`) and must be non-empty, else
`InvalidPath`. -/
def pathResolve (pv : List Nat → Bool) :
    Option (List Nat) → Except RequestWriteError (List Nat)
  | some p =>
    if !(pv p) then .error .InvalidPath
    else if p.length == 0 then .error .InvalidPath
    else .ok p
  | none => .ok (strBytes "/")

/-- The `while let` loop of `Request::write_to`'s query drain: each remaining
fragment is validated against the external query validator `qv`
(`EStr::<Query>::new`) and written as `"&" ++ fragment`.  Returns the sink,
the fragments not yet taken from the iterator, and the outcome. -/
def writeRestQueries (qv : List Nat → Bool) (w : Sink) :
    List (List Nat) → Sink × List (List Nat) × Except RequestWriteError Unit
  | [] => (w, [], .ok ())
  | q :: rest =>
    if !(qv q) then (w, rest, .error .InvalidQuery)
    else
      let (w1, ok) := w.write (38 :: q)
      if !ok then (w1, rest, .error .Io)
      else writeRestQueries qv w1 rest

/-- The `if let` around the query drain of `Request::write_to`: the first
fragment, if any, is validated and written as `"?" ++ fragment`, then the
rest as `"&" ++ fragment`. -/
def writeAllQueries (qv : List Nat → Bool) (w : Sink) :
    List (List Nat) → Sink × List (List Nat) × Except RequestWriteError Unit
  | [] => (w, [], .ok ())
  | q :: rest =>
    if !(qv q) then (w, rest, .error .InvalidQuery)
    else
      let (w1, ok) := w.write (63 :: q)
      if !ok then (w1, rest, .error .Io)
      else writeRestQueries qv w1 rest

/-- The header drain of `Request::write_to`: each header goes through
`write_header`; a failure is wrapped as `InvalidHeader` carrying the byte
count accumulated so far.  Returns the sink, the headers not yet taken from
the iterator, and the outcome. -/
def drainHeaders (w : Sink) (len : Nat) :
    List Header → Sink × List Header × Except RequestWriteError Nat
  | [] => (w, [], .ok len)
  | h :: rest =>
    match write_header w h with
    | (w1, .error e) => (w1, rest, .error (.InvalidHeader len e))
    | (w1, .ok n) =>
      drainHeaders w1 (len + n) rest

/-- `Request::write_to` from `request.rs`, parameterized by the external URI
path validator `pv` and query validator `qv` (the `fluent_uri` grammar
checks, which the crate treats as black-box predicates).  Returns the
assembler state after the call (its iterators partially or fully drained),
the sink, and the result. -/
def Request.write_to (pv qv : List Nat → Bool) (r : Request) (w : Sink) :
    Request × Sink × Except RequestWriteError Nat :=
  let version := r.version
  if versionBad version then (r, w, .error .InvalidVersion)
  else
    match pathResolve pv r.path with
    | .error e => (r, w, .error e)
    | .ok path =>
      let method := r.method.as_str
      let (w1, ok1) := w.write (method ++ [32] ++ path)
      if !ok1 then (r, w1, .error .Io)
      else
        match writeAllQueries qv w1 r.queries with
        | (w2, qrem, .error e) => ({ r with queries := qrem }, w2, .error e)
        | (w2, qrem, .ok ()) =>
          let (w3, ok2) := w2.write (strBytes " HTTP/" ++ version ++ [13, 10])
          if !ok2 then ({ r with queries := qrem }, w3, .error .Io)
          else
            let len := 9 + method.length + path.length + version.length
            match drainHeaders w3 len r.headers with
            | (w4, hrem, .error e) =>
              ({ r with queries := qrem, headers := hrem }, w4, .error e)
            | (w4, hrem, .ok len1) =>
              let (w5, ok3) := w4.write [13, 10]
              if !ok3 then ({ r with queries := qrem, headers := hrem }, w5, .error .Io)
              else ({ r with queries := qrem, headers := hrem }, w5, .ok (len1 + 2))

/-- The header drain of `Request::write_to_unchecked`, using
`write_header_unchecked`. -/
def drainHeadersUnchecked (w : Sink) (len : Nat) :
    List Header → Sink × List Header × Option Nat
  | [] => (w, [], some len)
  | h :: rest =>
    match write_header_unchecked w h with
    | (w1, none) => (w1, rest, none)
    | (w1, some n) => drainHeadersUnchecked w1 (len + n) rest

/-- `Request::write_to_unchecked` from `request.rs`: writes the whole request
line in one call (note: it never writes the query string), then the headers
unchecked, then the terminator; `none` models a propagated I/O error. -/
def Request.write_to_unchecked (r : Request) (w : Sink) :
    Request × Sink × Option Nat :=
  let path := r.path.getD (strBytes "/")
  let version := r.version
  let method := r.method.as_str
  let (w1, ok1) := w.write (method ++ [32] ++ path ++ strBytes " HTTP/" ++ version ++ [13, 10])
  if !ok1 then (r, w1, none)
  else
    let len := 9 + method.length + path.length + version.length
    match drainHeadersUnchecked w1 len r.headers with
    | (w2, hrem, none) => ({ r with headers := hrem }, w2, none)
    | (w2, hrem, some len1) =>
      let (w3, ok2) := w2.write [13, 10]
      if !ok2 then ({ r with headers := hrem }, w3, none)
      else ({ r with headers := hrem }, w3, some (len1 + 2))

/-- `ResponseWriteError` from `response.rs`.  Note there is no `Io`
variant. -/
inductive ResponseWriteError where
  | InvalidVersion
  | InvalidHeader (buffer_offset : Nat) (err : HeaderWriteError)
  deriving DecidableEq, Repr

/-- The outcome of `Response::write_to`: success with a byte count, a
`ResponseWriteError`, or a panic (the `.unwrap()` calls on the sink
writes). -/
inductive RespResult where
  | ok (n : Nat)
  | err (e : ResponseWriteError)
  | panicked
  deriving DecidableEq, Repr

/-- `http::StatusCode`, opaque to the crate: its 3-digit wire string and its
optional canonical reason phrase. -/
structure StatusCode where
  code : List Nat
  reason : Option (List Nat)
  deriving DecidableEq, Repr

/-- The `Response` assembler state. -/
structure Response where
  version : List Nat
  code : StatusCode
  headers : List Header
  deriving DecidableEq, Repr

/-- `Response::new`: unspecified version, no headers. -/
def Response.new (c : StatusCode) : Response :=
  ⟨UNSPECIFIED, c, []⟩

/-- `Response::version`. -/
def Response.setVersion (r : Response) (v : List Nat) : Response :=
  { r with version := v }

/-- `Response::header`. -/
def Response.addHeader (r : Response) (name value : List Nat) : Response :=
  { r with headers := r.headers ++ [⟨name, value⟩] }

/-- The header drain of `Response::write_to`: identical to the request's but
wrapping failures as `ResponseWriteError.InvalidHeader`. -/
def drainHeadersResp (w : Sink) (len : Nat) :
    List Header → Sink × List Header × Except ResponseWriteError Nat
  | [] => (w, [], .ok len)
  | h :: rest =>
    match write_header w h with
    | (w1, .error e) => (w1, rest, .error (.InvalidHeader len e))
    | (w1, .ok n) =>
      drainHeadersResp w1 (len + n) rest

/-- `Response::write_to` from `response.rs`: version check, then the status
line `"HTTP/" version " " code " " reason "\r\n"` written with `.unwrap()`
(a sink failure there panics), then the header drain, then the terminating
CRLF, again written with `.unwrap()`. -/
def Response.write_to (r : Response) (w : Sink) : Response × Sink × RespResult :=
  let version := r.version
  if versionBad version then (r, w, .err .InvalidVersion)
  else
    let code := r.code.code
    let reason := r.code.reason.getD []
    let (w1, ok1) := w.write (strBytes "HTTP/" ++ version ++ [32] ++ code ++ [32] ++ reason ++ [13, 10])
    if !ok1 then (r, w1, .panicked)
    else
      let len := 9 + version.length + code.length + reason.length
      match drainHeadersResp w1 len r.headers with
      | (w2, hrem, .error e) => ({ r with headers := hrem }, w2, .err e)
      | (w2, hrem, .ok len1) =>
        let (w3, ok2) := w2.write [13, 10]
        if !ok2 then ({ r with headers := hrem }, w3, .panicked)
        else ({ r with headers := hrem }, w3, .ok (len1 + 2))

/-! ## Spec-side wire descriptions

The following definitions spell out, following the spec's grammar
`METHOD SP PATH [QUERYSTRING] SP "HTTP/" VERSION CRLF *(HEADER-LINE) CRLF`
(and the response analogue), the byte sequences the serializers are claimed
to produce.  They are compared against the serializers above. -/

/-- One header line `NAME ": " VALUE CRLF`. -/
def headerLine (h : Header) : List Nat :=
  h.name ++ [58, 32] ++ h.value ++ [13, 10]

/-- The concatenation of the header lines, in insertion order. -/
def headerLines : List Header → List Nat
  | [] => []
  | h :: rest => headerLine h ++ headerLines rest

/-- The total byte length of the header lines. -/
def headersLen : List Header → Nat
  | [] => 0
  | h :: rest => (h.name.length + 2 + h.value.length + 2) + headersLen rest

/-- `*("&" frag)`: the non-first query fragments, each after a `&` (38). -/
def ampFrags : List (List Nat) → List Nat
  | [] => []
  | q :: rest => 38 :: (q ++ ampFrags rest)

/-- `QUERYSTRING = "?" frag *("&" frag)`, empty when there is no fragment;
`?` is byte 63. -/
def queryString : List (List Nat) → List Nat
  | [] => []
  | q :: rest => 63 :: (q ++ ampFrags rest)

/-- The path that ends up on the wire: the set path, or `"/"` by default. -/
def actualPath (r : Request) : List Nat := r.path.getD (strBytes "/")

/-- The spec's request wire format:
`METHOD SP PATH [QUERYSTRING] SP "HTTP/" VERSION CRLF *(HEADER-LINE) CRLF`. -/
def requestWire (r : Request) : List Nat :=
  r.method.as_str ++ [32] ++ actualPath r ++ queryString r.queries ++
    strBytes " HTTP/" ++ r.version ++ [13, 10] ++ headerLines r.headers ++ [13, 10]

/-- The spec's status line `"HTTP/" VERSION SP CODE SP REASON CRLF`. -/
def statusLine (r : Response) : List Nat :=
  strBytes "HTTP/" ++ r.version ++ [32] ++ r.code.code ++ [32] ++
    r.code.reason.getD [] ++ [13, 10]

/-- The spec's response wire format. -/
def responseWire (r : Response) : List Nat :=
  statusLine r ++ headerLines r.headers ++ [13, 10]

/-- A header name all of whose bytes are ASCII alphanumeric, `-` or `_`. -/
def validName (name : List Nat) : Bool := name.all nameByteOk

/-- A header value free of CR, LF and NUL. -/
def validValue (v : List Nat) : Bool := v.all (fun b => !(valueByteBad b))

/-- A wire-valid header. -/
def validHeader (h : Header) : Bool := validName h.name && validValue h.value

/-- The condition under which `pathResolve` succeeds: an unset path always
does; a set one must pass the external validator and be non-empty. -/
def pathOk (pv : List Nat → Bool) : Option (List Nat) → Bool
  | none => true
  | some p => pv p && !(p.length == 0)

/-! ## Facts about `position` -/

theorem position_eq_none {p : Nat → Bool} :
    ∀ {l : List Nat}, (∀ b ∈ l, p b = false) → position p l = none
  | [], _ => rfl
  | b :: rest, h => by
    have hb : p b = false := h b (List.mem_cons_self b rest)
    have ih := position_eq_none (fun x hx => h x (List.mem_cons_of_mem b hx))
    simp [position, hb, ih]

theorem position_eq_some {p : Nat → Bool} :
    ∀ {l : List Nat} {i : Nat}, position p l = some i →
      i < l.length ∧ p (l.getD i 0) = true ∧ ∀ j, j < i → p (l.getD j 0) = false
  | [], i, h => by simp [position] at h
  | b :: rest, i, h => by
    by_cases hb : p b
    · simp [position, hb] at h
      subst h
      exact ⟨Nat.succ_pos _, by simpa using hb, fun j hj => absurd hj (Nat.not_lt_zero j)⟩
    · simp only [position, hb, if_neg, Bool.false_eq_true, if_false, Option.map_eq_some'] at h
      obtain ⟨i0, hi0, rfl⟩ := h
      obtain ⟨hlt, hp, hfirst⟩ := position_eq_some hi0
      refine ⟨Nat.succ_lt_succ hlt, by simpa using hp, ?_⟩
      intro j hj
      cases j with
      | zero => simpa using (Bool.eq_false_iff.mpr hb)
      | succ j0 => simpa using hfirst j0 (Nat.lt_of_succ_lt_succ hj)

theorem position_isSome {p : Nat → Bool} :
    ∀ {l : List Nat}, (∃ b ∈ l, p b = true) → ∃ i, position p l = some i
  | [], h => by simp at h
  | b :: rest, h => by
    by_cases hb : p b
    · exact ⟨0, by simp [position, hb]⟩
    · have : ∃ x ∈ rest, p x = true := by
        obtain ⟨x, hx, hpx⟩ := h
        rcases List.mem_cons.mp hx with rfl | hx0
        · exact absurd hpx (by simpa using hb)
        · exact ⟨x, hx0, hpx⟩
      obtain ⟨i, hi⟩ := position_isSome this
      exact ⟨i + 1, by simp [position, hb, hi]⟩

/-! ## Computation on a never-failing sink -/

theorem position_name_none {name : List Nat} (h : validName name = true) :
    position (fun ch => !(nameByteOk ch)) name = none := by
  refine position_eq_none ?_
  intro b hb
  have h1 : name.all nameByteOk = true := h
  have := List.all_eq_true.mp h1 b hb
  simp [this]

theorem position_value_none {v : List Nat} (h : validValue v = true) :
    position valueByteBad v = none := by
  refine position_eq_none ?_
  intro b hb
  have h1 : v.all (fun b => !(valueByteBad b)) = true := h
  have := List.all_eq_true.mp h1 b hb
  simpa using this

theorem write_header_unchecked_nil_plan (buf : List Nat) (h : Header) :
    write_header_unchecked ⟨buf, []⟩ h =
      (⟨buf ++ headerLine h, []⟩, some (h.name.length + 2 + h.value.length + 2)) := by
  simp [write_header_unchecked, Sink.write, headerLine, List.append_assoc]

theorem write_header_nil_plan {buf : List Nat} {h : Header}
    (hn : validName h.name = true) (hv : validValue h.value = true) :
    write_header ⟨buf, []⟩ h =
      (⟨buf ++ headerLine h, []⟩, .ok (h.name.length + 2 + h.value.length + 2)) := by
  simp [write_header, position_name_none hn, position_value_none hv,
    write_header_unchecked_nil_plan]

theorem validHeader_name {h : Header} (hh : validHeader h = true) :
    validName h.name = true := by
  have h1 : (validName h.name && validValue h.value) = true := hh
  exact (Bool.and_eq_true _ _ |>.mp h1).1

theorem validHeader_value {h : Header} (hh : validHeader h = true) :
    validValue h.value = true := by
  have h1 : (validName h.name && validValue h.value) = true := hh
  exact (Bool.and_eq_true _ _ |>.mp h1).2

theorem all_head {p : α → Bool} {x : α} {l : List α}
    (h : (x :: l).all p = true) : p x = true :=
  List.all_eq_true.mp h x (List.mem_cons_self x l)

theorem all_tail {p : α → Bool} {x : α} {l : List α}
    (h : (x :: l).all p = true) : l.all p = true :=
  List.all_eq_true.mpr fun y hy => List.all_eq_true.mp h y (List.mem_cons_of_mem x hy)

theorem drainHeaders_nil_plan :
    ∀ (hs : List Header) (buf : List Nat) (len : Nat), hs.all validHeader = true →
      drainHeaders ⟨buf, []⟩ len hs =
        (⟨buf ++ headerLines hs, []⟩, [], .ok (len + headersLen hs))
  | [], buf, len, _ => by simp [drainHeaders, headerLines, headersLen]
  | h :: rest, buf, len, hall => by
    have hh := all_head hall
    have ih := drainHeaders_nil_plan rest (buf ++ headerLine h)
      (len + (h.name.length + 2 + h.value.length + 2)) (all_tail hall)
    rw [drainHeaders, write_header_nil_plan (validHeader_name hh) (validHeader_value hh)]
    dsimp only
    rw [ih]
    simp [headerLines, headersLen, List.append_assoc, Nat.add_assoc]

theorem drainHeadersResp_nil_plan :
    ∀ (hs : List Header) (buf : List Nat) (len : Nat), hs.all validHeader = true →
      drainHeadersResp ⟨buf, []⟩ len hs =
        (⟨buf ++ headerLines hs, []⟩, [], .ok (len + headersLen hs))
  | [], buf, len, _ => by simp [drainHeadersResp, headerLines, headersLen]
  | h :: rest, buf, len, hall => by
    have hh := all_head hall
    have ih := drainHeadersResp_nil_plan rest (buf ++ headerLine h)
      (len + (h.name.length + 2 + h.value.length + 2)) (all_tail hall)
    rw [drainHeadersResp, write_header_nil_plan (validHeader_name hh) (validHeader_value hh)]
    dsimp only
    rw [ih]
    simp [headerLines, headersLen, List.append_assoc, Nat.add_assoc]

theorem drainHeadersUnchecked_nil_plan :
    ∀ (hs : List Header) (buf : List Nat) (len : Nat),
      drainHeadersUnchecked ⟨buf, []⟩ len hs =
        (⟨buf ++ headerLines hs, []⟩, [], some (len + headersLen hs))
  | [], buf, len => by simp [drainHeadersUnchecked, headerLines, headersLen]
  | h :: rest, buf, len => by
    have ih := drainHeadersUnchecked_nil_plan rest (buf ++ headerLine h)
      (len + (h.name.length + 2 + h.value.length + 2))
    rw [drainHeadersUnchecked, write_header_unchecked_nil_plan]
    dsimp only
    rw [ih]
    simp [headerLines, headersLen, List.append_assoc, Nat.add_assoc]

theorem writeRestQueries_nil_plan {qv : List Nat → Bool} :
    ∀ (qs : List (List Nat)) (buf : List Nat), qs.all qv = true →
      writeRestQueries qv ⟨buf, []⟩ qs = (⟨buf ++ ampFrags qs, []⟩, [], .ok ())
  | [], buf, _ => by simp [writeRestQueries, ampFrags]
  | q :: rest, buf, hall => by
    rw [writeRestQueries]
    simp only [all_head hall, Bool.not_true, Bool.false_eq_true, if_false, Sink.write]
    rw [writeRestQueries_nil_plan rest _ (all_tail hall)]
    simp [ampFrags, List.append_assoc]

theorem writeAllQueries_nil_plan {qv : List Nat → Bool} :
    ∀ (qs : List (List Nat)) (buf : List Nat), qs.all qv = true →
      writeAllQueries qv ⟨buf, []⟩ qs = (⟨buf ++ queryString qs, []⟩, [], .ok ())
  | [], buf, _ => by simp [writeAllQueries, queryString]
  | q :: rest, buf, hall => by
    rw [writeAllQueries]
    simp only [all_head hall, Bool.not_true, Bool.false_eq_true, if_false, Sink.write]
    rw [writeRestQueries_nil_plan rest _ (all_tail hall)]
    simp [queryString, List.append_assoc]

theorem pathResolve_of_ok {pv : List Nat → Bool} :
    ∀ {op : Option (List Nat)}, pathOk pv op = true →
      pathResolve pv op = .ok (op.getD (strBytes "/"))
  | none, _ => rfl
  | some p, h => by
    have h1 : (pv p && !(p.length == 0)) = true := h
    obtain ⟨h2, h3⟩ := Bool.and_eq_true _ _ |>.mp h1
    have h4 : (p.length == 0) = false := by
      cases hpl : (p.length == 0) with
      | false => rfl
      | true => rw [hpl] at h3; simp at h3
    simp [pathResolve, h2, h4]

/-- Normal form of a fully valid checked request serialization on a
never-failing sink: the assembler comes back with both chains exhausted, the
sink holds exactly the spec's wire bytes, and the returned count is the one
computed by the code (note: it does not include the query-string bytes). -/
theorem write_to_nil_plan (pv qv : List Nat → Bool) (r : Request) (buf : List Nat)
    (hver : versionBad r.version = false) (hpath : pathOk pv r.path = true)
    (hq : r.queries.all qv = true) (hh : r.headers.all validHeader = true) :
    Request.write_to pv qv r ⟨buf, []⟩ =
      ({ r with queries := [], headers := [] },
       ⟨buf ++ requestWire r, []⟩,
       .ok (9 + r.method.as_str.length + (actualPath r).length + r.version.length +
         headersLen r.headers + 2)) := by
  have hpr := pathResolve_of_ok hpath
  simp [Request.write_to, hver, hpr, Sink.write, hq, hh, writeAllQueries_nil_plan,
    drainHeaders_nil_plan, requestWire, actualPath, List.append_assoc, Nat.add_assoc]

/-- Normal form of an unchecked request serialization on a never-failing
sink: no validation, and no query string is ever written. -/
theorem write_to_unchecked_nil_plan (r : Request) (buf : List Nat) :
    Request.write_to_unchecked r ⟨buf, []⟩ =
      ({ r with headers := [] },
       ⟨buf ++ r.method.as_str ++ [32] ++ actualPath r ++ strBytes " HTTP/" ++
          r.version ++ [13, 10] ++ headerLines r.headers ++ [13, 10], []⟩,
       some (9 + r.method.as_str.length + (actualPath r).length + r.version.length +
         headersLen r.headers + 2)) := by
  simp [Request.write_to_unchecked, Sink.write, drainHeadersUnchecked_nil_plan,
    actualPath, List.append_assoc, Nat.add_assoc]

/-- Normal form of a valid checked response serialization on a never-failing
sink. -/
theorem response_write_to_nil_plan (r : Response) (buf : List Nat)
    (hver : versionBad r.version = false) (hh : r.headers.all validHeader = true) :
    Response.write_to r ⟨buf, []⟩ =
      ({ r with headers := [] },
       ⟨buf ++ responseWire r, []⟩,
       .ok (9 + r.version.length + r.code.code.length + (r.code.reason.getD []).length +
         headersLen r.headers + 2)) := by
  simp [Response.write_to, hver, Sink.write, hh, drainHeadersResp_nil_plan,
    responseWire, statusLine, List.append_assoc, Nat.add_assoc]

/-! ## Outcome shapes on an arbitrary sink -/

theorem write_header_snd_cases (w : Sink) (h : Header)
    (hn : validName h.name = true) (hv : validValue h.value = true) :
    (write_header w h).2 = .error .Io ∨ ∃ n, (write_header w h).2 = .ok n := by
  simp only [write_header, position_name_none hn, position_value_none hv]
  rcases hwu : write_header_unchecked w h with ⟨w1, _ | n⟩
  · exact .inl (by simp [hwu])
  · exact .inr ⟨n, by simp [hwu]⟩

theorem drainHeaders_snd_cases :
    ∀ (hs : List Header) (w : Sink) (len : Nat), hs.all validHeader = true →
      (∃ m, (drainHeaders w len hs).2.2 = .ok m) ∨
      ∃ k, (drainHeaders w len hs).2.2 = .error (.InvalidHeader k .Io)
  | [], _, len, _ => .inl ⟨len, rfl⟩
  | h :: rest, w, len, hall => by
    have hh := all_head hall
    have hcases := write_header_snd_cases w h (validHeader_name hh) (validHeader_value hh)
    rcases hwh : write_header w h with ⟨w1, res⟩
    rw [hwh] at hcases
    simp only at hcases
    rcases res with e | n
    · have he : e = HeaderWriteError.Io := by
        rcases hcases with h1 | ⟨n, h2⟩
        · simpa using h1
        · simp at h2
      subst he
      exact .inr ⟨len, by rw [drainHeaders, hwh]⟩
    · have ih := drainHeaders_snd_cases rest w1 (len + n) (all_tail hall)
      rw [drainHeaders, hwh]
      exact ih

theorem drainHeadersResp_snd_cases :
    ∀ (hs : List Header) (w : Sink) (len : Nat), hs.all validHeader = true →
      (∃ m, (drainHeadersResp w len hs).2.2 = .ok m) ∨
      ∃ k, (drainHeadersResp w len hs).2.2 = .error (.InvalidHeader k .Io)
  | [], _, len, _ => .inl ⟨len, rfl⟩
  | h :: rest, w, len, hall => by
    have hh := all_head hall
    have hcases := write_header_snd_cases w h (validHeader_name hh) (validHeader_value hh)
    rcases hwh : write_header w h with ⟨w1, res⟩
    rw [hwh] at hcases
    simp only at hcases
    rcases res with e | n
    · have he : e = HeaderWriteError.Io := by
        rcases hcases with h1 | ⟨n, h2⟩
        · simpa using h1
        · simp at h2
      subst he
      exact .inr ⟨len, by rw [drainHeadersResp, hwh]⟩
    · have ih := drainHeadersResp_snd_cases rest w1 (len + n) (all_tail hall)
      rw [drainHeadersResp, hwh]
      exact ih

theorem writeRestQueries_snd_cases {qv : List Nat → Bool} :
    ∀ (qs : List (List Nat)) (w : Sink), qs.all qv = true →
      (writeRestQueries qv w qs).2.2 = .ok () ∨ (writeRestQueries qv w qs).2.2 = .error .Io
  | [], _, _ => .inl rfl
  | q :: rest, w, hall => by
    rw [writeRestQueries]
    simp only [all_head hall, Bool.not_true, Bool.false_eq_true, if_false]
    rcases hw : w.write (38 :: q) with ⟨w1, ok⟩
    cases ok
    · exact .inr rfl
    · exact writeRestQueries_snd_cases rest w1 (all_tail hall)

theorem writeAllQueries_snd_cases {qv : List Nat → Bool} :
    ∀ (qs : List (List Nat)) (w : Sink), qs.all qv = true →
      (writeAllQueries qv w qs).2.2 = .ok () ∨ (writeAllQueries qv w qs).2.2 = .error .Io
  | [], _, _ => .inl rfl
  | q :: rest, w, hall => by
    rw [writeAllQueries]
    simp only [all_head hall, Bool.not_true, Bool.false_eq_true, if_false]
    rcases hw : w.write (63 :: q) with ⟨w1, ok⟩
    cases ok
    · exact .inr rfl
    · exact writeRestQueries_snd_cases rest w1 (all_tail hall)

theorem pathResolve_shapes (pv : List Nat → Bool) :
    ∀ op : Option (List Nat),
      pathResolve pv op = .error .InvalidPath ∨ ∃ p, pathResolve pv op = .ok p
  | none => .inr ⟨strBytes "/", rfl⟩
  | some p => by
    rw [pathResolve]
    rcases hpv : pv p with _ | _
    · exact .inl (by simp)
    · simp only [Bool.not_true, Bool.false_eq_true, if_false]
      rcases hl : (p.length == 0) with _ | _
      · exact .inr ⟨p, by simp⟩
      · exact .inl (by simp)

theorem writeRestQueries_snd_shapes (qv : List Nat → Bool) :
    ∀ (qs : List (List Nat)) (w : Sink),
      (writeRestQueries qv w qs).2.2 = .ok () ∨
      (writeRestQueries qv w qs).2.2 = .error .InvalidQuery ∨
      (writeRestQueries qv w qs).2.2 = .error .Io
  | [], _ => .inl rfl
  | q :: rest, w => by
    rw [writeRestQueries]
    rcases hqv : qv q with _ | _
    · exact .inr (.inl (by simp))
    · simp only [Bool.not_true, Bool.false_eq_true, if_false]
      rcases hw : w.write (38 :: q) with ⟨w1, ok⟩
      cases ok
      · exact .inr (.inr rfl)
      · exact writeRestQueries_snd_shapes qv rest w1

theorem writeAllQueries_snd_shapes (qv : List Nat → Bool) :
    ∀ (qs : List (List Nat)) (w : Sink),
      (writeAllQueries qv w qs).2.2 = .ok () ∨
      (writeAllQueries qv w qs).2.2 = .error .InvalidQuery ∨
      (writeAllQueries qv w qs).2.2 = .error .Io
  | [], _ => .inl rfl
  | q :: rest, w => by
    rw [writeAllQueries]
    rcases hqv : qv q with _ | _
    · exact .inr (.inl (by simp))
    · simp only [Bool.not_true, Bool.false_eq_true, if_false]
      rcases hw : w.write (63 :: q) with ⟨w1, ok⟩
      cases ok
      · exact .inr (.inr rfl)
      · exact writeRestQueries_snd_shapes qv rest w1

theorem drainHeaders_snd_shapes :
    ∀ (hs : List Header) (w : Sink) (len : Nat),
      (∃ m, (drainHeaders w len hs).2.2 = .ok m) ∨
      ∃ k e, (drainHeaders w len hs).2.2 = .error (.InvalidHeader k e)
  | [], _, len => .inl ⟨len, rfl⟩
  | h :: rest, w, len => by
    rcases hwh : write_header w h with ⟨w1, res⟩
    rcases res with e | n
    · exact .inr ⟨len, e, by rw [drainHeaders, hwh]⟩
    · have ih := drainHeaders_snd_shapes rest w1 (len + n)
      rw [drainHeaders, hwh]
      exact ih

theorem drainHeadersResp_snd_shapes :
    ∀ (hs : List Header) (w : Sink) (len : Nat),
      (∃ m, (drainHeadersResp w len hs).2.2 = .ok m) ∨
      ∃ k e, (drainHeadersResp w len hs).2.2 = .error (.InvalidHeader k e)
  | [], _, len => .inl ⟨len, rfl⟩
  | h :: rest, w, len => by
    rcases hwh : write_header w h with ⟨w1, res⟩
    rcases res with e | n
    · exact .inr ⟨len, e, by rw [drainHeadersResp, hwh]⟩
    · have ih := drainHeadersResp_snd_shapes rest w1 (len + n)
      rw [drainHeadersResp, hwh]
      exact ih

/-- With a well-formed version string, checked request serialization never
reports `InvalidVersion`: the outcome is success, `InvalidPath`,
`InvalidQuery`, `Io`, or `InvalidHeader`. -/
theorem write_to_snd_shapes (pv qv : List Nat → Bool) (r : Request) (w : Sink)
    (hver : versionBad r.version = false) :
    (∃ n, (Request.write_to pv qv r w).2.2 = .ok n) ∨
    (Request.write_to pv qv r w).2.2 = .error .InvalidPath ∨
    (Request.write_to pv qv r w).2.2 = .error .InvalidQuery ∨
    (Request.write_to pv qv r w).2.2 = .error .Io ∨
    ∃ k e, (Request.write_to pv qv r w).2.2 = .error (.InvalidHeader k e) := by
  simp only [Request.write_to, hver, Bool.false_eq_true, if_false]
  rcases pathResolve_shapes pv r.path with hpr | ⟨p, hpr⟩
  · rw [hpr]
    exact .inr (.inl rfl)
  · rw [hpr]
    dsimp only
    rcases hw1 : Sink.write w (r.method.as_str ++ [32] ++ p) with ⟨w1, ok1⟩
    cases ok1
    · exact .inr (.inr (.inr (.inl rfl)))
    · dsimp only
      rcases hq2 : writeAllQueries qv w1 r.queries with ⟨w2, qrem, qres⟩
      have hqs := writeAllQueries_snd_shapes qv r.queries w1
      rw [hq2] at hqs
      simp only at hqs
      rcases qres with e | u
      · have he : e = RequestWriteError.InvalidQuery ∨ e = RequestWriteError.Io := by
          rcases hqs with h1 | h1 | h1
          · simp at h1
          · exact .inl (by simpa using h1)
          · exact .inr (by simpa using h1)
        rcases he with rfl | rfl
        · exact .inr (.inr (.inl rfl))
        · exact .inr (.inr (.inr (.inl rfl)))
      · cases u
        dsimp only
        rcases hw3 : Sink.write w2 (strBytes " HTTP/" ++ r.version ++ [13, 10]) with ⟨w3, ok2⟩
        cases ok2
        · exact .inr (.inr (.inr (.inl rfl)))
        · dsimp only
          rcases hd : drainHeaders w3
              (9 + (Method.as_str r.method).length + p.length + r.version.length)
              r.headers with ⟨w4, hrem, hres⟩
          have hds := drainHeaders_snd_shapes r.headers w3
            (9 + (Method.as_str r.method).length + p.length + r.version.length)
          rw [hd] at hds
          simp only at hds
          rcases hres with e | m
          · have he : ∃ k e1, e = RequestWriteError.InvalidHeader k e1 := by
              rcases hds with ⟨m, h1⟩ | ⟨k, e1, h1⟩
              · simp at h1
              · exact ⟨k, e1, by simpa using h1⟩
            obtain ⟨k, e1, rfl⟩ := he
            exact .inr (.inr (.inr (.inr ⟨k, e1, rfl⟩)))
          · dsimp only
            rcases hw5 : Sink.write w4 [13, 10] with ⟨w5, ok3⟩
            cases ok3
            · exact .inr (.inr (.inr (.inl rfl)))
            · exact .inl ⟨m + 2, rfl⟩

/-- With a fully valid configuration, checked request serialization either
succeeds or reports a sink failure: top-level `Io`, or `InvalidHeader`
carrying `Io` when the failing write happened inside a header. -/
theorem write_to_snd_cases (pv qv : List Nat → Bool) (r : Request) (w : Sink)
    (hver : versionBad r.version = false) (hpath : pathOk pv r.path = true)
    (hq : r.queries.all qv = true) (hh : r.headers.all validHeader = true) :
    (∃ n, (Request.write_to pv qv r w).2.2 = .ok n) ∨
    (Request.write_to pv qv r w).2.2 = .error .Io ∨
    ∃ k, (Request.write_to pv qv r w).2.2 = .error (.InvalidHeader k .Io) := by
  simp only [Request.write_to, hver, Bool.false_eq_true, if_false, pathResolve_of_ok hpath]
  rcases hw1 : Sink.write w (r.method.as_str ++ [32] ++ r.path.getD (strBytes "/")) with ⟨w1, ok1⟩
  cases ok1
  · exact .inr (.inl rfl)
  · dsimp only
    rcases hq2 : writeAllQueries qv w1 r.queries with ⟨w2, qrem, qres⟩
    have hqs := writeAllQueries_snd_cases r.queries w1 hq
    rw [hq2] at hqs
    simp only at hqs
    rcases qres with e | u
    · have he : e = RequestWriteError.Io := by
        rcases hqs with h1 | h1
        · simp at h1
        · simpa using h1
      subst he
      exact .inr (.inl rfl)
    · cases u
      dsimp only
      rcases hw3 : Sink.write w2 (strBytes " HTTP/" ++ r.version ++ [13, 10]) with ⟨w3, ok2⟩
      cases ok2
      · exact .inr (.inl rfl)
      · dsimp only
        rcases hd : drainHeaders w3
            (9 + (Method.as_str r.method).length + (r.path.getD (strBytes "/")).length +
              r.version.length) r.headers with ⟨w4, hrem, hres⟩
        have hds := drainHeaders_snd_cases r.headers w3
          (9 + (Method.as_str r.method).length + (r.path.getD (strBytes "/")).length +
            r.version.length) hh
        rw [hd] at hds
        simp only at hds
        rcases hres with e | m
        · have he : ∃ k, e = RequestWriteError.InvalidHeader k .Io := by
            rcases hds with ⟨m, h1⟩ | ⟨k, h1⟩
            · simp at h1
            · exact ⟨k, by simpa using h1⟩
          obtain ⟨k, rfl⟩ := he
          exact .inr (.inr ⟨k, rfl⟩)
        · dsimp only
          rcases hw5 : Sink.write w4 [13, 10] with ⟨w5, ok3⟩
          cases ok3
          · exact .inr (.inl rfl)
          · exact .inl ⟨m + 2, rfl⟩

/-- With a well-formed version string, response serialization never reports
`InvalidVersion`: it succeeds, reports `InvalidHeader`, or panics. -/
theorem response_snd_shapes (r : Response) (w : Sink)
    (hver : versionBad r.version = false) :
    (∃ n, (Response.write_to r w).2.2 = .ok n) ∨
    (∃ k e, (Response.write_to r w).2.2 = .err (.InvalidHeader k e)) ∨
    (Response.write_to r w).2.2 = .panicked := by
  simp only [Response.write_to, hver, Bool.false_eq_true, if_false]
  rcases hw1 : Sink.write w (strBytes "HTTP/" ++ r.version ++ [32] ++ r.code.code ++ [32] ++
      r.code.reason.getD [] ++ [13, 10]) with ⟨w1, ok1⟩
  cases ok1
  · exact .inr (.inr rfl)
  · dsimp only
    rcases hd : drainHeadersResp w1
        (9 + r.version.length + r.code.code.length + (r.code.reason.getD []).length)
        r.headers with ⟨w2, hrem, hres⟩
    have hds := drainHeadersResp_snd_shapes r.headers w1
      (9 + r.version.length + r.code.code.length + (r.code.reason.getD []).length)
    rw [hd] at hds
    simp only at hds
    rcases hres with e | m
    · have he : ∃ k e1, e = ResponseWriteError.InvalidHeader k e1 := by
        rcases hds with ⟨m, h1⟩ | ⟨k, e1, h1⟩
        · simp at h1
        · exact ⟨k, e1, by simpa using h1⟩
      obtain ⟨k, e1, rfl⟩ := he
      exact .inr (.inl ⟨k, e1, rfl⟩)
    · dsimp only
      rcases hw3 : Sink.write w2 [13, 10] with ⟨w3, ok2⟩
      cases ok2
      · exact .inr (.inr rfl)
      · exact .inl ⟨m + 2, rfl⟩

/-- With a well-formed version and valid headers, response serialization
either succeeds, reports `InvalidHeader` carrying `Io`, or panics — a sink
failure on the status line or terminator is a panic, not an error value. -/
theorem response_snd_cases (r : Response) (w : Sink)
    (hver : versionBad r.version = false) (hh : r.headers.all validHeader = true) :
    (∃ n, (Response.write_to r w).2.2 = .ok n) ∨
    (∃ k, (Response.write_to r w).2.2 = .err (.InvalidHeader k .Io)) ∨
    (Response.write_to r w).2.2 = .panicked := by
  simp only [Response.write_to, hver, Bool.false_eq_true, if_false]
  rcases hw1 : Sink.write w (strBytes "HTTP/" ++ r.version ++ [32] ++ r.code.code ++ [32] ++
      r.code.reason.getD [] ++ [13, 10]) with ⟨w1, ok1⟩
  cases ok1
  · exact .inr (.inr rfl)
  · dsimp only
    rcases hd : drainHeadersResp w1
        (9 + r.version.length + r.code.code.length + (r.code.reason.getD []).length)
        r.headers with ⟨w2, hrem, hres⟩
    have hds := drainHeadersResp_snd_cases r.headers w1
      (9 + r.version.length + r.code.code.length + (r.code.reason.getD []).length) hh
    rw [hd] at hds
    simp only at hds
    rcases hres with e | m
    · have he : ∃ k, e = ResponseWriteError.InvalidHeader k .Io := by
        rcases hds with ⟨m, h1⟩ | ⟨k, h1⟩
        · simp at h1
        · exact ⟨k, by simpa using h1⟩
      obtain ⟨k, rfl⟩ := he
      exact .inr (.inl ⟨k, rfl⟩)
    · dsimp only
      rcases hw3 : Sink.write w2 [13, 10] with ⟨w3, ok2⟩
      cases ok2
      · exact .inr (.inr rfl)
      · exact .inl ⟨m + 2, rfl⟩

/-! ## The sink buffer only grows -/

theorem extends_trans {a b c : List Nat} (h1 : ∃ t, b = a ++ t) (h2 : ∃ t, c = b ++ t) :
    ∃ t, c = a ++ t := by
  obtain ⟨t1, ht1⟩ := h1
  obtain ⟨t2, ht2⟩ := h2
  exact ⟨t1 ++ t2, by rw [ht2, ht1, List.append_assoc]⟩

theorem sink_write_extends (s : Sink) (bs : List Nat) :
    ∃ t, (s.write bs).1.buf = s.buf ++ t := by
  rcases s with ⟨buf, _ | ⟨ok, rest⟩⟩
  · exact ⟨bs, rfl⟩
  · cases ok
    · exact ⟨[], by simp [Sink.write]⟩
    · exact ⟨bs, by simp [Sink.write]⟩

theorem write_header_unchecked_extends (w : Sink) (h : Header) :
    ∃ t, (write_header_unchecked w h).1.buf = w.buf ++ t := by
  simp only [write_header_unchecked]
  rcases hw1 : w.write h.name with ⟨w1, ok1⟩
  have e1 : ∃ t, w1.buf = w.buf ++ t := by
    have e := sink_write_extends w h.name
    rw [hw1] at e
    exact e
  cases ok1
  · simpa using e1
  · rcases hw2 : w1.write [58, 32] with ⟨w2, ok2⟩
    have e2 : ∃ t, w2.buf = w.buf ++ t := by
      have e := sink_write_extends w1 [58, 32]
      rw [hw2] at e
      exact extends_trans e1 e
    cases ok2
    · simpa using e2
    · rcases hw3 : w2.write h.value with ⟨w3, ok3⟩
      have e3 : ∃ t, w3.buf = w.buf ++ t := by
        have e := sink_write_extends w2 h.value
        rw [hw3] at e
        exact extends_trans e2 e
      cases ok3
      · simpa using e3
      · rcases hw4 : w3.write [13, 10] with ⟨w4, ok4⟩
        have e4 : ∃ t, w4.buf = w.buf ++ t := by
          have e := sink_write_extends w3 [13, 10]
          rw [hw4] at e
          exact extends_trans e3 e
        cases ok4 <;> simpa using e4

theorem write_header_extends (w : Sink) (h : Header) :
    ∃ t, (write_header w h).1.buf = w.buf ++ t := by
  simp only [write_header]
  rcases hp1 : position (fun ch => !(nameByteOk ch)) h.name with _ | pos
  · rcases hp2 : position valueByteBad h.value with _ | pos
    · rcases hwu : write_header_unchecked w h with ⟨w1, res⟩
      have e := write_header_unchecked_extends w h
      rw [hwu] at e
      simp only at e
      cases res <;> simpa using e
    · exact ⟨[], by simp⟩
  · exact ⟨[], by simp⟩

theorem writeRestQueries_extends {qv : List Nat → Bool} :
    ∀ (qs : List (List Nat)) (w : Sink),
      ∃ t, (writeRestQueries qv w qs).1.buf = w.buf ++ t
  | [], w => ⟨[], by simp [writeRestQueries]⟩
  | q :: rest, w => by
    rw [writeRestQueries]
    rcases hqv : qv q with _ | _
    · exact ⟨[], by simp⟩
    · simp only [Bool.not_true, Bool.false_eq_true, if_false]
      rcases hw : w.write (38 :: q) with ⟨w1, ok⟩
      have e1 : ∃ t, w1.buf = w.buf ++ t := by
        have e := sink_write_extends w (38 :: q)
        rw [hw] at e
        exact e
      cases ok
      · simpa using e1
      · have e2 := @writeRestQueries_extends qv rest w1
        dsimp only
        exact extends_trans e1 e2

theorem writeAllQueries_extends {qv : List Nat → Bool} :
    ∀ (qs : List (List Nat)) (w : Sink),
      ∃ t, (writeAllQueries qv w qs).1.buf = w.buf ++ t
  | [], w => ⟨[], by simp [writeAllQueries]⟩
  | q :: rest, w => by
    rw [writeAllQueries]
    rcases hqv : qv q with _ | _
    · exact ⟨[], by simp⟩
    · simp only [Bool.not_true, Bool.false_eq_true, if_false]
      rcases hw : w.write (63 :: q) with ⟨w1, ok⟩
      have e1 : ∃ t, w1.buf = w.buf ++ t := by
        have e := sink_write_extends w (63 :: q)
        rw [hw] at e
        exact e
      cases ok
      · simpa using e1
      · have e2 := @writeRestQueries_extends qv rest w1
        dsimp only
        exact extends_trans e1 e2

theorem drainHeaders_extends :
    ∀ (hs : List Header) (w : Sink) (len : Nat),
      ∃ t, (drainHeaders w len hs).1.buf = w.buf ++ t
  | [], w, len => ⟨[], by simp [drainHeaders]⟩
  | h :: rest, w, len => by
    rw [drainHeaders]
    rcases hwh : write_header w h with ⟨w1, res⟩
    have e1 : ∃ t, w1.buf = w.buf ++ t := by
      have e := write_header_extends w h
      rw [hwh] at e
      exact e
    rcases res with e | nn
    · simpa using e1
    · exact extends_trans e1 (drainHeaders_extends rest w1 (len + nn))

/-! ## Inversion of a successful serialization -/

theorem pathResolve_ok_inv {pv : List Nat → Bool} :
    ∀ {op : Option (List Nat)} {p : List Nat},
      pathResolve pv op = .ok p → pathOk pv op = true
  | none, _, _ => rfl
  | some p0, p, h => by
    rw [pathResolve] at h
    rcases hpv : pv p0 with _ | _
    · rw [hpv] at h
      simp at h
    · rw [hpv] at h
      simp only [Bool.not_true, Bool.false_eq_true, if_false] at h
      rcases hl : (p0.length == 0) with _ | _
      · simp [pathOk, hpv, hl]
      · rw [hl] at h
        simp at h

theorem writeRestQueries_ok_rem {qv : List Nat → Bool} :
    ∀ {qs : List (List Nat)} {w w2 : Sink} {rem : List (List Nat)},
      writeRestQueries qv w qs = (w2, rem, .ok ()) → rem = []
  | [], w, w2, rem, h => by
    rw [writeRestQueries] at h
    injection h with h1 h23
    injection h23 with h2 h3
    exact h2.symm
  | q :: rest, w, w2, rem, h => by
    rw [writeRestQueries] at h
    rcases hqv : qv q with _ | _
    · rw [hqv] at h
      simp at h
    · rw [hqv] at h
      simp only [Bool.not_true, Bool.false_eq_true, if_false] at h
      rcases hw : w.write (38 :: q) with ⟨w1, ok⟩
      rw [hw] at h
      cases ok
      · simp at h
      · exact writeRestQueries_ok_rem h

theorem writeAllQueries_ok_rem {qv : List Nat → Bool} :
    ∀ {qs : List (List Nat)} {w w2 : Sink} {rem : List (List Nat)},
      writeAllQueries qv w qs = (w2, rem, .ok ()) → rem = []
  | [], w, w2, rem, h => by
    rw [writeAllQueries] at h
    injection h with h1 h23
    injection h23 with h2 h3
    exact h2.symm
  | q :: rest, w, w2, rem, h => by
    rw [writeAllQueries] at h
    rcases hqv : qv q with _ | _
    · rw [hqv] at h
      simp at h
    · rw [hqv] at h
      simp only [Bool.not_true, Bool.false_eq_true, if_false] at h
      rcases hw : w.write (63 :: q) with ⟨w1, ok⟩
      rw [hw] at h
      cases ok
      · simp at h
      · exact writeRestQueries_ok_rem h

theorem drainHeaders_ok_rem :
    ∀ {hs : List Header} {w : Sink} {len : Nat} {w2 : Sink} {rem : List Header} {m : Nat},
      drainHeaders w len hs = (w2, rem, .ok m) → rem = []
  | [], w, len, w2, rem, m, hd => by
    rw [drainHeaders] at hd
    injection hd with h1 h23
    injection h23 with h2 h3
    exact h2.symm
  | hh0 :: rest, w, len, w2, rem, m, hd => by
    rw [drainHeaders] at hd
    rcases hwh : write_header w hh0 with ⟨w1, res⟩
    rw [hwh] at hd
    rcases res with e | nn
    · simp at hd
    · exact drainHeaders_ok_rem hd

theorem drainHeadersResp_ok_rem :
    ∀ {hs : List Header} {w : Sink} {len : Nat} {w2 : Sink} {rem : List Header} {m : Nat},
      drainHeadersResp w len hs = (w2, rem, .ok m) → rem = []
  | [], w, len, w2, rem, m, hd => by
    rw [drainHeadersResp] at hd
    injection hd with h1 h23
    injection h23 with h2 h3
    exact h2.symm
  | hh0 :: rest, w, len, w2, rem, m, hd => by
    rw [drainHeadersResp] at hd
    rcases hwh : write_header w hh0 with ⟨w1, res⟩
    rw [hwh] at hd
    rcases res with e | nn
    · simp at hd
    · exact drainHeadersResp_ok_rem hd

/-- Inverting a successful checked request serialization: the version and
path checks must have passed, and the returned assembler has both chains
fully drained. -/
theorem write_to_ok_inv {pv qv : List Nat → Bool} {r r1 : Request} {w w1 : Sink} {n : Nat}
    (hw : Request.write_to pv qv r w = (r1, w1, .ok n)) :
    versionBad r.version = false ∧ pathOk pv r.path = true ∧
      r1 = { r with queries := [], headers := [] } := by
  rcases hver : versionBad r.version with _ | _
  · simp only [Request.write_to, hver, Bool.false_eq_true, if_false] at hw
    rcases hpr : pathResolve pv r.path with e | p
    · rw [hpr] at hw
      simp at hw
    · rw [hpr] at hw
      have hpok := pathResolve_ok_inv hpr
      dsimp only at hw
      rcases hw1e : Sink.write w (r.method.as_str ++ [32] ++ p) with ⟨wa, ok1⟩
      rw [hw1e] at hw
      cases ok1
      · simp at hw
      · dsimp only at hw
        rcases hq2 : writeAllQueries qv wa r.queries with ⟨wb, qrem, qres⟩
        rw [hq2] at hw
        rcases qres with e | u
        · simp at hw
        · cases u
          have hqrem := writeAllQueries_ok_rem hq2
          dsimp only at hw
          rcases hw3e : Sink.write wb (strBytes " HTTP/" ++ r.version ++ [13, 10]) with ⟨wc, ok2⟩
          rw [hw3e] at hw
          cases ok2
          · simp at hw
          · dsimp only at hw
            rcases hd : drainHeaders wc
                (9 + (Method.as_str r.method).length + p.length + r.version.length)
                r.headers with ⟨wd, hrem, hres⟩
            rw [hd] at hw
            rcases hres with e | m
            · simp at hw
            · have hhrem := drainHeaders_ok_rem hd
              dsimp only at hw
              rcases hw5e : Sink.write wd [13, 10] with ⟨we, ok3⟩
              rw [hw5e] at hw
              cases ok3
              · simp at hw
              · dsimp only at hw
                injection hw with hwr hw23
                subst hqrem
                subst hhrem
                exact ⟨rfl, hpok, hwr.symm⟩
  · simp only [Request.write_to, hver, if_true] at hw
    simp at hw

/-- Inverting a successful response serialization: the version check passed
and the returned assembler's header chain is fully drained. -/
theorem response_write_to_ok_inv {r r1 : Response} {w w1 : Sink} {n : Nat}
    (hw : Response.write_to r w = (r1, w1, .ok n)) :
    versionBad r.version = false ∧ r1 = { r with headers := [] } := by
  rcases hver : versionBad r.version with _ | _
  · simp only [Response.write_to, hver, Bool.false_eq_true, if_false] at hw
    rcases hw1e : Sink.write w (strBytes "HTTP/" ++ r.version ++ [32] ++ r.code.code ++
        [32] ++ r.code.reason.getD [] ++ [13, 10]) with ⟨wa, ok1⟩
    rw [hw1e] at hw
    cases ok1
    · simp at hw
    · dsimp only at hw
      rcases hd : drainHeadersResp wa
          (9 + r.version.length + r.code.code.length + (r.code.reason.getD []).length)
          r.headers with ⟨wb, hrem, hres⟩
      rw [hd] at hw
      rcases hres with e | m
      · simp at hw
      · have hhrem := drainHeadersResp_ok_rem hd
        dsimp only at hw
        rcases hw3e : Sink.write wb [13, 10] with ⟨wc, ok2⟩
        rw [hw3e] at hw
        cases ok2
        · simp at hw
        · dsimp only at hw
          injection hw with hwr hw23
          subst hhrem
          exact ⟨rfl, hwr.symm⟩
  · simp only [Response.write_to, hver, if_true] at hw
    simp at hw

/-! ## Version check characterization -/

theorem versionBad_iff (v : List Nat) :
    versionBad v = true ↔
      (v.length ≠ 3 ∨ ∀ b ∈ v, ¬(isAsciiDigit b = true ∨ b = 46)) := by
  simp [versionBad, List.any_eq_false, not_or]

theorem write_to_bad_version {pv qv : List Nat → Bool} {r : Request} {w : Sink}
    (hbad : versionBad r.version = true) :
    Request.write_to pv qv r w = (r, w, .error .InvalidVersion) := by
  simp [Request.write_to, hbad]

theorem response_bad_version {r : Response} {w : Sink}
    (hbad : versionBad r.version = true) :
    Response.write_to r w = (r, w, .err .InvalidVersion) := by
  simp [Response.write_to, hbad]

/-- Once the version and path checks pass, whatever happens afterwards the
sink buffer extends the request line's start `METHOD SP PATH`. -/
theorem write_to_buf_start (pv qv : List Nat → Bool) (r : Request) (w : Sink)
    (hver : versionBad r.version = false) (hpath : pathOk pv r.path = true)
    (hplan : w.plan = []) :
    ∃ t, (Request.write_to pv qv r w).2.1.buf =
      w.buf ++ (r.method.as_str ++ [32] ++ r.path.getD (strBytes "/")) ++ t := by
  obtain ⟨buf, plan⟩ := w
  have hplan' : plan = [] := hplan
  subst hplan'
  simp only [Request.write_to, hver, Bool.false_eq_true, if_false, pathResolve_of_ok hpath]
  have hw1 : Sink.write ⟨buf, []⟩ (r.method.as_str ++ [32] ++ r.path.getD (strBytes "/")) =
      (⟨buf ++ (r.method.as_str ++ [32] ++ r.path.getD (strBytes "/")), []⟩, true) := rfl
  rw [hw1]
  dsimp only
  rcases hq2 : writeAllQueries qv
      ⟨buf ++ (r.method.as_str ++ [32] ++ r.path.getD (strBytes "/")), []⟩
      r.queries with ⟨w2, qrem, qres⟩
  have e2 : ∃ t, w2.buf = (buf ++ (r.method.as_str ++ [32] ++ r.path.getD (strBytes "/"))) ++ t := by
    have e := @writeAllQueries_extends qv r.queries
      ⟨buf ++ (r.method.as_str ++ [32] ++ r.path.getD (strBytes "/")), []⟩
    rw [hq2] at e
    exact e
  rcases qres with e | u
  · simpa using e2
  · cases u
    dsimp only
    rcases hw3 : Sink.write w2 (strBytes " HTTP/" ++ r.version ++ [13, 10]) with ⟨w3, ok2⟩
    have e3 : ∃ t, w3.buf = (buf ++ (r.method.as_str ++ [32] ++ r.path.getD (strBytes "/"))) ++ t := by
      have e := sink_write_extends w2 (strBytes " HTTP/" ++ r.version ++ [13, 10])
      rw [hw3] at e
      exact extends_trans e2 e
    cases ok2
    · simpa using e3
    · dsimp only
      rcases hd : drainHeaders w3
          (9 + (Method.as_str r.method).length + (r.path.getD (strBytes "/")).length +
            r.version.length) r.headers with ⟨w4, hrem, hres⟩
      have e4 : ∃ t, w4.buf = (buf ++ (r.method.as_str ++ [32] ++ r.path.getD (strBytes "/"))) ++ t := by
        have e := drainHeaders_extends r.headers w3
          (9 + (Method.as_str r.method).length + (r.path.getD (strBytes "/")).length +
            r.version.length)
        rw [hd] at e
        exact extends_trans e3 e
      rcases hres with e | m
      · simpa using e4
      · dsimp only
        rcases hw5 : Sink.write w4 [13, 10] with ⟨w5, ok3⟩
        have e5 : ∃ t, w5.buf = (buf ++ (r.method.as_str ++ [32] ++ r.path.getD (strBytes "/"))) ++ t := by
          have e := sink_write_extends w4 [13, 10]
          rw [hw5] at e
          exact extends_trans e4 e
        cases ok3 <;> simpa using e5

/-! ## The claims -/

/-- C1: the claim that a successful serialize returns exactly the number of
bytes written — including, for requests, the query string — fails on the
code: `Request::write_to` writes the query bytes but never adds them to
`len`.  For `GET`, version 1.1, default path and one query fragment `a=b`
on an empty never-failing sink, serialize succeeds returning 18 while the
sink holds the 22 bytes of `GET /?a=b HTTP/1.1\r\n\r\n`. -/
theorem c1_count_omits_query_bytes :
    (Request.write_to (fun _ => true) (fun _ => true)
        (((Request.new .Get).setVersion V1_1).addQuery (strBytes "a=b")) ⟨[], []⟩).2.2 =
      .ok 18 ∧
    ((Request.write_to (fun _ => true) (fun _ => true)
        (((Request.new .Get).setVersion V1_1).addQuery (strBytes "a=b")) ⟨[], []⟩).2.1.buf).length =
      22 := ⟨rfl, rfl⟩

/-- C2 counterexample: "serialize never panics on a sink failure" is false
for the response assembler — with a valid version and a sink whose first
write fails, `Response::write_to` hits the `.unwrap()` on the status-line
write and panics. -/
theorem c2_response_panics_on_sink_failure :
    (Response.write_to
        ((Response.new ⟨strBytes "200", some (strBytes "OK")⟩).setVersion V1_1)
        ⟨[], [false]⟩).2.2 = RespResult.panicked := rfl

/-- C2 (amended): for a validly configured request, a sink write failure is
returned to the caller as the `Io` kind (top-level `Io`, or `InvalidHeader`
carrying `Io` when the failure happens during a header write) and the
request serializer never panics; for a validly configured response, a sink
failure during a header write is returned as `InvalidHeader` carrying `Io`,
but a failure on the status line or terminating CRLF causes a panic —
`ResponseWriteError` has no top-level `Io` variant. -/
theorem c2_io_propagation_amended :
    (∀ (pv qv : List Nat → Bool) (r : Request) (w : Sink),
      versionBad r.version = false → pathOk pv r.path = true →
      r.queries.all qv = true → r.headers.all validHeader = true →
      (∃ n, (Request.write_to pv qv r w).2.2 = .ok n) ∨
      (Request.write_to pv qv r w).2.2 = .error .Io ∨
      ∃ k, (Request.write_to pv qv r w).2.2 = .error (.InvalidHeader k .Io)) ∧
    (∀ (r : Response) (w : Sink),
      versionBad r.version = false → r.headers.all validHeader = true →
      (∃ n, (Response.write_to r w).2.2 = .ok n) ∨
      (∃ k, (Response.write_to r w).2.2 = .err (.InvalidHeader k .Io)) ∨
      (Response.write_to r w).2.2 = .panicked) :=
  ⟨fun pv qv r w hver hpath hq hh => write_to_snd_cases pv qv r w hver hpath hq hh,
   fun r w hver hh => response_snd_cases r w hver hh⟩

/-- C2 witness: the amended claim instantiated on a request and a response
whose first sink write fails. -/
theorem c2_io_propagation_amended_witness :
    ((∃ n, (Request.write_to (fun _ => true) (fun _ => true)
        ((Request.new .Get).setVersion V1_1) ⟨[], [false]⟩).2.2 = .ok n) ∨
      (Request.write_to (fun _ => true) (fun _ => true)
        ((Request.new .Get).setVersion V1_1) ⟨[], [false]⟩).2.2 = .error .Io ∨
      ∃ k, (Request.write_to (fun _ => true) (fun _ => true)
        ((Request.new .Get).setVersion V1_1) ⟨[], [false]⟩).2.2 =
          .error (.InvalidHeader k .Io)) ∧
    ((∃ n, (Response.write_to
        ((Response.new ⟨strBytes "200", some (strBytes "OK")⟩).setVersion V1_1)
        ⟨[], [false]⟩).2.2 = .ok n) ∨
      (∃ k, (Response.write_to
        ((Response.new ⟨strBytes "200", some (strBytes "OK")⟩).setVersion V1_1)
        ⟨[], [false]⟩).2.2 = .err (.InvalidHeader k .Io)) ∨
      (Response.write_to
        ((Response.new ⟨strBytes "200", some (strBytes "OK")⟩).setVersion V1_1)
        ⟨[], [false]⟩).2.2 = .panicked) :=
  ⟨c2_io_propagation_amended.1 (fun _ => true) (fun _ => true)
      ((Request.new .Get).setVersion V1_1) ⟨[], [false]⟩ (by decide) rfl rfl rfl,
   c2_io_propagation_amended.2
      ((Response.new ⟨strBytes "200", some (strBytes "OK")⟩).setVersion V1_1)
      ⟨[], [false]⟩ (by decide) rfl⟩

/-- C3 counterexample: with one (valid) query fragment, checked and
unchecked serializers write different byte sequences — `write_to_unchecked`
never writes the query string. -/
theorem c3_unchecked_omits_query :
    (Request.write_to (fun _ => true) (fun _ => true)
        (((Request.new .Get).setVersion V1_1).addQuery (strBytes "a")) ⟨[], []⟩).2.1.buf ≠
    (Request.write_to_unchecked
        (((Request.new .Get).setVersion V1_1).addQuery (strBytes "a")) ⟨[], []⟩).2.1.buf := by
  decide

/-- C3 (amended): for every request with valid version, path and headers and
with NO query fragments, the unchecked serializer writes to a never-failing
sink exactly the byte sequence the checked one writes (defaulting an unset
path to `"/"` the same way) and returns the same byte count; with a query
fragment present the outputs differ, since unchecked skips the query
string. -/
theorem c3_checked_unchecked_agree :
    ∀ (pv qv : List Nat → Bool) (r : Request) (w : Sink),
      r.queries = [] → versionBad r.version = false → pathOk pv r.path = true →
      r.headers.all validHeader = true → w.plan = [] →
      (Request.write_to pv qv r w).2.1 = (Request.write_to_unchecked r w).2.1 ∧
      ∃ n, (Request.write_to pv qv r w).2.2 = .ok n ∧
        (Request.write_to_unchecked r w).2.2 = some n := by
  intro pv qv r w hq0 hver hpath hh hplan
  obtain ⟨buf, plan⟩ := w
  have hplan' : plan = [] := hplan
  subst hplan'
  have hq : r.queries.all qv = true := by rw [hq0]; rfl
  rw [write_to_nil_plan pv qv r buf hver hpath hq hh, write_to_unchecked_nil_plan r buf]
  refine ⟨?_, _, rfl, rfl⟩
  simp [requestWire, hq0, queryString, List.append_assoc]

/-- C3 witness: the amended claim instantiated on a query-free request with
one header. -/
theorem c3_checked_unchecked_agree_witness :
    (Request.write_to (fun _ => true) (fun _ => true)
        (((Request.new .Get).setVersion V1_1).addHeader (strBytes "a") (strBytes "1"))
        ⟨[], []⟩).2.1 =
      (Request.write_to_unchecked
        (((Request.new .Get).setVersion V1_1).addHeader (strBytes "a") (strBytes "1"))
        ⟨[], []⟩).2.1 ∧
    ∃ n, (Request.write_to (fun _ => true) (fun _ => true)
        (((Request.new .Get).setVersion V1_1).addHeader (strBytes "a") (strBytes "1"))
        ⟨[], []⟩).2.2 = .ok n ∧
      (Request.write_to_unchecked
        (((Request.new .Get).setVersion V1_1).addHeader (strBytes "a") (strBytes "1"))
        ⟨[], []⟩).2.2 = some n :=
  c3_checked_unchecked_agree (fun _ => true) (fun _ => true)
    (((Request.new .Get).setVersion V1_1).addHeader (strBytes "a") (strBytes "1"))
    ⟨[], []⟩ rfl (by decide) rfl (by decide) rfl

/-- C4: for every header name made only of ASCII alphanumerics, `-` or `_`
and every value free of CR, LF and NUL, `write_header` on a never-failing
sink succeeds, appends exactly `name ++ ": " ++ value ++ "\r\n"` to the
sink, and returns `name.length + 2 + value.length + 2`. -/
theorem c4_header_writer_valid :
    ∀ (w : Sink) (h : Header),
      h.name.all nameByteOk = true →
      h.value.all (fun b => !(valueByteBad b)) = true →
      w.plan = [] →
      write_header w h =
        (⟨w.buf ++ h.name ++ [58, 32] ++ h.value ++ [13, 10], []⟩,
         .ok (h.name.length + 2 + h.value.length + 2)) := by
  intro w h hn hv hplan
  obtain ⟨buf, plan⟩ := w
  have hplan' : plan = [] := hplan
  subst hplan'
  rw [write_header_nil_plan hn hv]
  simp [headerLine, List.append_assoc]

/-- C4 witness: the header `Host: x` is written as 10 bytes. -/
theorem c4_header_writer_valid_witness :
    write_header ⟨[], []⟩ ⟨strBytes "Host", strBytes "x"⟩ =
      (⟨([] : List Nat) ++ strBytes "Host" ++ [58, 32] ++ strBytes "x" ++ [13, 10], []⟩,
       .ok ((strBytes "Host").length + 2 + (strBytes "x").length + 2)) :=
  c4_header_writer_valid ⟨[], []⟩ ⟨strBytes "Host", strBytes "x"⟩
    (by decide) (by decide) rfl

/-- C5: a header name containing a disallowed character makes `write_header`
fail with `InvalidName` at the 0-based index of the first such character;
with a fully valid name and a value containing CR, LF or NUL it fails with
`InvalidValue` at the index of the first such byte; in both cases nothing is
written to the sink. -/
theorem c5_header_writer_invalid :
    ∀ (w : Sink) (h : Header),
      (validName h.name = false →
        ∃ pos, write_header w h = (w, .error (.InvalidName pos)) ∧
          pos < h.name.length ∧ nameByteOk (h.name.getD pos 0) = false ∧
          ∀ j, j < pos → nameByteOk (h.name.getD j 0) = true) ∧
      (validName h.name = true → validValue h.value = false →
        ∃ pos, write_header w h = (w, .error (.InvalidValue pos)) ∧
          pos < h.value.length ∧ valueByteBad (h.value.getD pos 0) = true ∧
          ∀ j, j < pos → valueByteBad (h.value.getD j 0) = false) := by
  intro w h
  constructor
  · intro hn
    have hex : ∃ b ∈ h.name, (!(nameByteOk b)) = true := by
      have h1 : h.name.all nameByteOk = false := hn
      rcases List.all_eq_false.mp h1 with ⟨b, hb, hpb⟩
      exact ⟨b, hb, by simpa using hpb⟩
    obtain ⟨i, hi⟩ := position_isSome hex
    obtain ⟨hlt, hp, hfirst⟩ := position_eq_some hi
    refine ⟨i, ?_, hlt, by simpa using hp, ?_⟩
    · simp [write_header, hi]
    · intro j hj
      simpa using hfirst j hj
  · intro hn hv
    have hvn := position_name_none hn
    have hex : ∃ b ∈ h.value, valueByteBad b = true := by
      have h1 : h.value.all (fun b => !(valueByteBad b)) = false := hv
      rcases List.all_eq_false.mp h1 with ⟨b, hb, hpb⟩
      exact ⟨b, hb, by simpa using hpb⟩
    obtain ⟨i, hi⟩ := position_isSome hex
    obtain ⟨hlt, hp, hfirst⟩ := position_eq_some hi
    exact ⟨i, by simp [write_header, hvn, hi], hlt, hp, hfirst⟩

/-- C5 witness: the name `a b` fails at index 1 (the space), and with the
valid name `a` the value `B\rC` fails at index 1 (the CR). -/
theorem c5_header_writer_invalid_witness :
    (∃ pos, write_header ⟨[], []⟩ ⟨strBytes "a b", strBytes "x"⟩ =
        (⟨[], []⟩, .error (.InvalidName pos)) ∧
      pos < (strBytes "a b").length ∧
      nameByteOk ((strBytes "a b").getD pos 0) = false ∧
      ∀ j, j < pos → nameByteOk ((strBytes "a b").getD j 0) = true) ∧
    (∃ pos, write_header ⟨[], []⟩ ⟨strBytes "a", [66, 13, 67]⟩ =
        (⟨[], []⟩, .error (.InvalidValue pos)) ∧
      pos < ([66, 13, 67] : List Nat).length ∧
      valueByteBad (([66, 13, 67] : List Nat).getD pos 0) = true ∧
      ∀ j, j < pos → valueByteBad (([66, 13, 67] : List Nat).getD j 0) = false) :=
  ⟨(c5_header_writer_invalid ⟨[], []⟩ ⟨strBytes "a b", strBytes "x"⟩).1 (by decide),
   (c5_header_writer_invalid ⟨[], []⟩ ⟨strBytes "a", [66, 13, 67]⟩).2 (by decide) (by decide)⟩

/-- C10: when the name is invalid and the value also contains CR, LF or NUL,
`write_header` reports `InvalidName` — the name is validated before the
value. -/
theorem c10_name_checked_before_value :
    ∀ (w : Sink) (h : Header),
      validName h.name = false → validValue h.value = false →
      ∃ pos, write_header w h = (w, .error (.InvalidName pos)) := by
  intro w h hn _
  have hex : ∃ b ∈ h.name, (!(nameByteOk b)) = true := by
    have h1 : h.name.all nameByteOk = false := hn
    rcases List.all_eq_false.mp h1 with ⟨b, hb, hpb⟩
    exact ⟨b, hb, by simpa using hpb⟩
  obtain ⟨i, hi⟩ := position_isSome hex
  exact ⟨i, by simp [write_header, hi]⟩

/-- C10 witness: name `a b` and value containing a CR give `InvalidName`. -/
theorem c10_name_checked_before_value_witness :
    ∃ pos, write_header ⟨[], []⟩ ⟨strBytes "a b", [13]⟩ =
      (⟨[], []⟩, .error (.InvalidName pos)) :=
  c10_name_checked_before_value ⟨[], []⟩ ⟨strBytes "a b", [13]⟩ (by decide) (by decide)

/-- C6: serialize fails with `InvalidVersion` exactly when the version wire
string has length ≠ 3 or contains neither an ASCII digit nor a `.` (46);
when it fails this way the assembler and the sink come back untouched (no
bytes written); and the default `UNSPECIFIED` version (empty wire string)
always fails the check. -/
theorem c6_invalid_version_iff :
    ∀ (pv qv : List Nat → Bool) (r : Request) (w : Sink) (s : Response) (u : Sink),
      ((Request.write_to pv qv r w).2.2 = .error .InvalidVersion ↔
        (r.version.length ≠ 3 ∨ ∀ b ∈ r.version, ¬(isAsciiDigit b = true ∨ b = 46))) ∧
      ((Request.write_to pv qv r w).2.2 = .error .InvalidVersion →
        Request.write_to pv qv r w = (r, w, .error .InvalidVersion)) ∧
      ((Response.write_to s u).2.2 = .err .InvalidVersion ↔
        (s.version.length ≠ 3 ∨ ∀ b ∈ s.version, ¬(isAsciiDigit b = true ∨ b = 46))) ∧
      ((Response.write_to s u).2.2 = .err .InvalidVersion →
        Response.write_to s u = (s, u, .err .InvalidVersion)) ∧
      versionBad UNSPECIFIED = true := by
  intro pv qv r w s u
  have hreq : (Request.write_to pv qv r w).2.2 = .error .InvalidVersion ↔
      versionBad r.version = true := by
    constructor
    · intro hres
      rcases hvb : versionBad r.version with _ | _
      · exfalso
        rcases write_to_snd_shapes pv qv r w hvb with ⟨n, h1⟩ | h1 | h1 | h1 | ⟨k, e, h1⟩ <;>
          rw [hres] at h1 <;> simp at h1
      · rfl
    · intro hb
      rw [write_to_bad_version hb]
  have hresp : (Response.write_to s u).2.2 = .err .InvalidVersion ↔
      versionBad s.version = true := by
    constructor
    · intro hres
      rcases hvb : versionBad s.version with _ | _
      · exfalso
        rcases response_snd_shapes s u hvb with ⟨n, h1⟩ | ⟨k, e, h1⟩ | h1 <;>
          rw [hres] at h1 <;> simp at h1
      · rfl
    · intro hb
      rw [response_bad_version hb]
  refine ⟨hreq.trans (versionBad_iff r.version), ?_,
    hresp.trans (versionBad_iff s.version), ?_, by decide⟩
  · intro hres
    exact write_to_bad_version (hreq.mp hres)
  · intro hres
    exact response_bad_version (hresp.mp hres)

/-- C6 witness: default-version assemblers fail with `InvalidVersion`,
leaving the sink empty. -/
theorem c6_invalid_version_iff_witness :
    Request.write_to (fun _ => true) (fun _ => true) (Request.new .Get) ⟨[], []⟩ =
      (Request.new .Get, ⟨[], []⟩, .error .InvalidVersion) ∧
    Response.write_to (Response.new ⟨strBytes "200", some (strBytes "OK")⟩) ⟨[], []⟩ =
      (Response.new ⟨strBytes "200", some (strBytes "OK")⟩, ⟨[], []⟩, .err .InvalidVersion) := by
  have h := c6_invalid_version_iff (fun _ => true) (fun _ => true) (Request.new .Get) ⟨[], []⟩
    (Response.new ⟨strBytes "200", some (strBytes "OK")⟩) ⟨[], []⟩
  exact ⟨h.2.1 rfl, h.2.2.2.1 rfl⟩

/-- C7: with a well-formed version (serialize checks the version first), an
unset path is serialized as the default `/` right after `METHOD SP`, and a
path set to the empty string makes serialize fail with `InvalidPath` before
any request-line bytes are written (assembler and sink returned
untouched). -/
theorem c7_path_default_and_empty :
    ∀ (pv qv : List Nat → Bool) (r : Request) (w : Sink),
      (r.path = none → versionBad r.version = false → w.plan = [] →
        ∃ t, (Request.write_to pv qv r w).2.1.buf =
          w.buf ++ (r.method.as_str ++ [32] ++ strBytes "/") ++ t) ∧
      (r.path = some [] → versionBad r.version = false →
        Request.write_to pv qv r w = (r, w, .error .InvalidPath)) := by
  intro pv qv r w
  constructor
  · intro hnone hver hplan
    have hpath : pathOk pv r.path = true := by rw [hnone]; rfl
    have h := write_to_buf_start pv qv r w hver hpath hplan
    simpa [hnone] using h
  · intro hempty hver
    have hpr : pathResolve pv r.path = .error .InvalidPath := by
      rw [hempty]
      rcases hpv : pv [] with _ | _
      · simp [pathResolve, hpv]
      · simp [pathResolve, hpv]
    simp [Request.write_to, hver, hpr]

/-- C7 witness: serializing `GET` with version 1.1 and no path puts
`GET /` on the wire; setting the empty path gives `InvalidPath`. -/
theorem c7_path_default_and_empty_witness :
    (∃ t, (Request.write_to (fun _ => true) (fun _ => true)
        ((Request.new .Get).setVersion V1_1) ⟨[], []⟩).2.1.buf =
      (Sink.mk [] []).buf ++
        (((Request.new .Get).setVersion V1_1).method.as_str ++ [32] ++ strBytes "/") ++ t) ∧
    Request.write_to (fun _ => true) (fun _ => true)
        (((Request.new .Get).setVersion V1_1).setPath []) ⟨[], []⟩ =
      ((((Request.new .Get).setVersion V1_1).setPath []), ⟨[], []⟩, .error .InvalidPath) :=
  ⟨(c7_path_default_and_empty (fun _ => true) (fun _ => true)
      ((Request.new .Get).setVersion V1_1) ⟨[], []⟩).1 rfl (by decide) rfl,
   (c7_path_default_and_empty (fun _ => true) (fun _ => true)
      (((Request.new .Get).setVersion V1_1).setPath []) ⟨[], []⟩).2 rfl (by decide)⟩

/-- C8: for a fully valid request configuration on a never-failing sink,
serialize succeeds and the sink receives exactly
`METHOD SP PATH [QUERYSTRING] " HTTP/" VERSION CRLF *(HEADER-LINE) CRLF`
(`requestWire`), with query fragments and headers in insertion order. -/
theorem c8_request_wire_format :
    ∀ (pv qv : List Nat → Bool) (r : Request) (w : Sink),
      versionBad r.version = false → pathOk pv r.path = true →
      r.queries.all qv = true → r.headers.all validHeader = true → w.plan = [] →
      (Request.write_to pv qv r w).2.1.buf = w.buf ++ requestWire r ∧
      ∃ n, (Request.write_to pv qv r w).2.2 = .ok n := by
  intro pv qv r w hver hpath hq hh hplan
  obtain ⟨buf, plan⟩ := w
  have hplan' : plan = [] := hplan
  subst hplan'
  rw [write_to_nil_plan pv qv r buf hver hpath hq hh]
  exact ⟨rfl, _, rfl⟩

/-- C8 witness: a request with two headers and two query fragments. -/
theorem c8_request_wire_format_witness :
    (Request.write_to (fun _ => true) (fun _ => true)
        (((((Request.new .Get).setVersion V1_1).addHeader (strBytes "a") (strBytes "1")).addHeader
          (strBytes "b") (strBytes "2")).addQuery (strBytes "a=b") |>.addQuery (strBytes "b=c"))
        ⟨[], []⟩).2.1.buf =
      (Sink.mk [] []).buf ++ requestWire
        (((((Request.new .Get).setVersion V1_1).addHeader (strBytes "a") (strBytes "1")).addHeader
          (strBytes "b") (strBytes "2")).addQuery (strBytes "a=b") |>.addQuery (strBytes "b=c")) ∧
    ∃ n, (Request.write_to (fun _ => true) (fun _ => true)
        (((((Request.new .Get).setVersion V1_1).addHeader (strBytes "a") (strBytes "1")).addHeader
          (strBytes "b") (strBytes "2")).addQuery (strBytes "a=b") |>.addQuery (strBytes "b=c"))
        ⟨[], []⟩).2.2 = .ok n :=
  c8_request_wire_format (fun _ => true) (fun _ => true)
    (((((Request.new .Get).setVersion V1_1).addHeader (strBytes "a") (strBytes "1")).addHeader
      (strBytes "b") (strBytes "2")).addQuery (strBytes "a=b") |>.addQuery (strBytes "b=c"))
    ⟨[], []⟩ (by decide) rfl (by decide) (by decide) rfl

/-- C9: after one successful serialize the assembler's header and query
chains are exhausted: re-serializing the returned assembler value onto a
fresh never-failing sink writes no query string and no header lines — only
the request line and the terminating CRLF (for a response: the status line
and the terminating CRLF). -/
theorem c9_second_pass_is_drained :
    (∀ (pv qv : List Nat → Bool) (r r1 : Request) (w w1 w2 : Sink) (n : Nat),
      Request.write_to pv qv r w = (r1, w1, .ok n) → w2.plan = [] →
      r1.headers = [] ∧ r1.queries = [] ∧
      (Request.write_to pv qv r1 w2).2.1.buf =
        w2.buf ++ r.method.as_str ++ [32] ++ actualPath r ++ strBytes " HTTP/" ++
          r.version ++ [13, 10] ++ [13, 10]) ∧
    (∀ (s s1 : Response) (u u1 u2 : Sink) (m : Nat),
      Response.write_to s u = (s1, u1, .ok m) → u2.plan = [] →
      s1.headers = [] ∧
      (Response.write_to s1 u2).2.1.buf = u2.buf ++ statusLine s ++ [13, 10]) := by
  constructor
  · intro pv qv r r1 w w1 w2 n hw hplan
    obtain ⟨hver, hpath, hr1⟩ := write_to_ok_inv hw
    subst hr1
    refine ⟨rfl, rfl, ?_⟩
    obtain ⟨buf2, plan2⟩ := w2
    have hp2 : plan2 = [] := hplan
    subst hp2
    rw [write_to_nil_plan pv qv { r with queries := [], headers := [] } buf2 hver hpath
      (by rfl) (by rfl)]
    simp [requestWire, queryString, headerLines, actualPath, List.append_assoc]
  · intro s s1 u u1 u2 m hw hplan
    obtain ⟨hver, hs1⟩ := response_write_to_ok_inv hw
    subst hs1
    refine ⟨rfl, ?_⟩
    obtain ⟨buf2, plan2⟩ := u2
    have hp2 : plan2 = [] := hplan
    subst hp2
    rw [response_write_to_nil_plan { s with headers := [] } buf2 hver (by rfl)]
    simp [responseWire, statusLine, headerLines, List.append_assoc]

/-- C9 witness: a request with one header and one query and a response with
one header, each serialized a second time after a successful first pass. -/
theorem c9_second_pass_is_drained_witness :
    ((Request.write_to (fun _ => true) (fun _ => true)
        ((((Request.new .Get).setVersion V1_1).addHeader (strBytes "a") (strBytes "1")).addQuery
          (strBytes "a=b")) ⟨[], []⟩).1.headers = [] ∧
      (Request.write_to (fun _ => true) (fun _ => true)
        ((((Request.new .Get).setVersion V1_1).addHeader (strBytes "a") (strBytes "1")).addQuery
          (strBytes "a=b")) ⟨[], []⟩).1.queries = [] ∧
      (Request.write_to (fun _ => true) (fun _ => true)
        (Request.write_to (fun _ => true) (fun _ => true)
          ((((Request.new .Get).setVersion V1_1).addHeader (strBytes "a") (strBytes "1")).addQuery
            (strBytes "a=b")) ⟨[], []⟩).1 ⟨[], []⟩).2.1.buf =
        (Sink.mk [] []).buf ++
          ((((Request.new .Get).setVersion V1_1).addHeader (strBytes "a") (strBytes "1")).addQuery
            (strBytes "a=b")).method.as_str ++ [32] ++
          actualPath ((((Request.new .Get).setVersion V1_1).addHeader (strBytes "a")
            (strBytes "1")).addQuery (strBytes "a=b")) ++ strBytes " HTTP/" ++
          ((((Request.new .Get).setVersion V1_1).addHeader (strBytes "a") (strBytes "1")).addQuery
            (strBytes "a=b")).version ++ [13, 10] ++ [13, 10]) ∧
    ((Response.write_to (((Response.new ⟨strBytes "200", some (strBytes "OK")⟩).setVersion
        V1_1).addHeader (strBytes "d") (strBytes "4")) ⟨[], []⟩).1.headers = [] ∧
      (Response.write_to
        (Response.write_to (((Response.new ⟨strBytes "200", some (strBytes "OK")⟩).setVersion
          V1_1).addHeader (strBytes "d") (strBytes "4")) ⟨[], []⟩).1 ⟨[], []⟩).2.1.buf =
        (Sink.mk [] []).buf ++
          statusLine (((Response.new ⟨strBytes "200", some (strBytes "OK")⟩).setVersion
            V1_1).addHeader (strBytes "d") (strBytes "4")) ++ [13, 10]) :=
  ⟨c9_second_pass_is_drained.1 (fun _ => true) (fun _ => true)
      ((((Request.new .Get).setVersion V1_1).addHeader (strBytes "a") (strBytes "1")).addQuery
        (strBytes "a=b"))
      (Request.write_to (fun _ => true) (fun _ => true)
        ((((Request.new .Get).setVersion V1_1).addHeader (strBytes "a") (strBytes "1")).addQuery
          (strBytes "a=b")) ⟨[], []⟩).1
      ⟨[], []⟩
      (Request.write_to (fun _ => true) (fun _ => true)
        ((((Request.new .Get).setVersion V1_1).addHeader (strBytes "a") (strBytes "1")).addQuery
          (strBytes "a=b")) ⟨[], []⟩).2.1
      ⟨[], []⟩ 24 rfl rfl,
   c9_second_pass_is_drained.2
      (((Response.new ⟨strBytes "200", some (strBytes "OK")⟩).setVersion V1_1).addHeader
        (strBytes "d") (strBytes "4"))
      (Response.write_to (((Response.new ⟨strBytes "200", some (strBytes "OK")⟩).setVersion
        V1_1).addHeader (strBytes "d") (strBytes "4")) ⟨[], []⟩).1
      ⟨[], []⟩
      (Response.write_to (((Response.new ⟨strBytes "200", some (strBytes "OK")⟩).setVersion
        V1_1).addHeader (strBytes "d") (strBytes "4")) ⟨[], []⟩).2.1
      ⟨[], []⟩ 25 rfl rfl⟩

end HttpWriter
